import Mathlib

/-
Verification of the stash_file_watcher watch-and-debounce engine
(src/main.go) against its natural-language specification.

The Go program is shallowly embedded:
  * paths are Lean `String`s; `clean` embeds Go `path/filepath.Clean`
    (unix rules) and `goAbs` embeds `filepath.Abs` with the working
    directory passed explicitly (`none` models a `Getwd` failure);
  * the filesystem is a stat function `String → Option FileInfo`
    (`none` models a stat error) and, for directory walking, a
    read-directory function `String → Option (List (String × Bool))`
    (entry name and IsDir flag; `none` models a ReadDir error);
  * `processOp` embeds the debounce-expiry callback of `dedupLoop`;
  * the event-delivery loop of `dedupLoop` is embedded as a
    discrete-event simulator over timestamped events: `resetOrInsert`
    is the per-event table update, `fireOne`/`fireDue` run expired
    timers, `runEvents` drives a whole run and finally flushes the
    remaining timers;
  * `watcherSet` embeds the flag method `watcher.Set`, `watchSubdirs`
    the recursive enumerator (with a fuel bound standing for the
    finiteness of the directory tree), and `startup` the sequential
    skeleton of `main` up to the signal-wait loop.
-/

namespace StashWatcher

/-- Unix path separator, `filepath.Separator` on the target platform. -/
def sepChar : Char := '/'

/-- Whether the path is absolute: `strings.HasPrefix(s, "/")`. -/
def isRooted (s : String) : Bool := s.data.head? == some sepChar

/-- Helper for `splitSlash`: `cur` holds the current element in
reverse. -/
def splitSlashAux (cur : List Char) : List Char → List (List Char)
  | [] => [cur.reverse]
  | c :: cs =>
    if c = sepChar then cur.reverse :: splitSlashAux [] cs
    else splitSlashAux (c :: cur) cs

/-- Go `strings.Split(s, "/")`. -/
def splitSlash (s : String) : List String :=
  (splitSlashAux [] s.data).map (fun l => String.mk l)

/-- Go `strings.Join(l, "/")`. -/
def joinSlash : List String → String
  | [] => ""
  | [x] => x
  | x :: xs => x ++ "/" ++ joinSlash xs

/-- Core of Go `filepath.Clean`: process the slash-separated elements,
dropping empty and `.` elements and resolving `..` lexically, with
`acc` holding the already-kept elements in reverse. -/
def cleanRev (rooted : Bool) : List String → List String → List String
  | acc, [] => acc.reverse
  | acc, c :: rest =>
    if c = "" || c = "." then cleanRev rooted acc rest
    else if c = ".." then
      match acc with
      | [] => if rooted then cleanRev rooted [] rest else cleanRev rooted [".."] rest
      | a :: as =>
        if a = ".." then cleanRev rooted (".." :: a :: as) rest
        else cleanRev rooted as rest
    else cleanRev rooted (c :: acc) rest

/-- Go `filepath.Clean` for unix paths. -/
def clean (s : String) : String :=
  if s = "" then "." else
  let rooted := isRooted s
  let comps := cleanRev rooted [] (splitSlash s)
  if rooted then "/" ++ joinSlash comps
  else if comps = [] then "." else joinSlash comps

/-- Go `filepath.Abs`: an absolute path is cleaned, a relative path is
joined to the working directory; `cwd = none` models a `Getwd`
failure, the only way `Abs` can fail. -/
def goAbs (cwd : Option String) (p : String) : Option String :=
  if isRooted p then some (clean p)
  else
    match cwd with
    | none => none
    | some c => some (clean (c ++ "/" ++ p))

/-- Result of `os.Stat`: for this program only `IsDir` is consulted. -/
structure FileInfo where
  isDir : Bool
deriving DecidableEq, Repr

/-- The fsnotify operation bitmask, restricted to the three bits the
program tests (`event.Has(fsnotify.Create/Write/Remove)`). -/
structure Op where
  create : Bool
  write : Bool
  remove : Bool
deriving DecidableEq, Repr

/-- An fsnotify event: path name and operation bits. -/
structure FsEvent where
  name : String
  op : Op
deriving DecidableEq, Repr

/-- The event filter of `dedupLoop`: only Write, Remove and Create
events are processed, everything else is skipped. -/
def qualifies (op : Op) : Bool := op.write || op.remove || op.create

/-- Externally observable actions of the program. -/
inductive Action where
  /-- `sendScanRequest(endpointEnv, doAuthEnv)` — the outbound
  notification call. -/
  | notify (endpoint : String) (auth : Bool)
  /-- `wat.Add(abs)` succeeding — a directory becomes watched. -/
  | register (path : String)
  /-- a soft error logged via `printError` and then dropped. -/
  | softErrorLogged
deriving DecidableEq, Repr

/-- Environment of the running process: stat and watcher-add results,
working directory, and the notifier configuration. -/
structure Env where
  stat : String → Option FileInfo
  cwd : Option String
  addOk : String → Bool
  endpoint : String
  doAuth : Bool

/-- The notification action `processOp` and the scheduled ticker both
perform: `sendScanRequest(endpointEnv, doAuthEnv)`. -/
def notifyAction (env : Env) : Action := Action.notify env.endpoint env.doAuth

/-- Result of one run of the debounce-expiry callback: the emitted
actions, and whether `log.Fatal` terminated the process. -/
structure ProcResult where
  actions : List Action
  fatal : Bool
deriving DecidableEq, Repr

/-- The `processOp` callback of `dedupLoop`: on a Create event resolve
the absolute path and stat it (soft error on failure), notify for a
non-directory and register a directory (`log.Fatal` if `wat.Add`
fails); on a Write/Remove event notify unconditionally. -/
def processOp (env : Env) (e : FsEvent) : ProcResult :=
  if e.op.create then
    match goAbs env.cwd e.name with
    | none => ⟨[Action.softErrorLogged], false⟩
    | some a =>
      match env.stat a with
      | none => ⟨[Action.softErrorLogged], false⟩
      | some f =>
        if f.isDir = false then ⟨[notifyAction env], false⟩
        else if env.addOk a then ⟨[Action.register a], false⟩
        else ⟨[], true⟩
  else ⟨[notifyAction env], false⟩

/-- The quiet window of `dedupLoop` (`waitFor = 100 * time.Millisecond`),
in milliseconds. -/
def waitFor : Nat := 100

/-- The `timers` map of `dedupLoop`, `path -> timer`, as an association
list of path, firing deadline, and the event captured by the timer
callback closure when the timer was created. -/
abbrev Timers := List (String × Nat × FsEvent)

/-- Lookup `timers[name]`. -/
def lookupT : Timers → String → Option (Nat × FsEvent)
  | [], _ => none
  | (n, d, c) :: rest, p => if n == p then some (d, c) else lookupT rest p

/-- Resetting, via `t.Reset(waitFor)`, the timer stored for `p`: the deadline moves
to `nd`, the captured event is untouched. -/
def resetT : Timers → String → Nat → Timers
  | [], _, _ => []
  | (n, d, c) :: rest, p, nd =>
    if n == p then (n, nd, c) :: rest else (n, d, c) :: resetT rest p nd

/-- Go `delete(timers, name)`. -/
def deleteT (ts : Timers) (p : String) : Timers :=
  ts.filter (fun x => !(x.1 == p))

/-- A timestamped incoming event (arrival time in milliseconds). -/
structure TEv where
  time : Nat
  ev : FsEvent
deriving DecidableEq, Repr

/-- The per-event bookkeeping of `dedupLoop`: a qualifying event either
creates a timer capturing this event (`time.AfterFunc` with the
callback closed over `event`) or resets the existing timer; either way
the deadline becomes `now + waitFor`. Non-qualifying events are
skipped. -/
def resetOrInsert (ts : Timers) (e : TEv) : Timers :=
  if qualifies e.ev.op then
    match lookupT ts e.ev.name with
    | some _ => resetT ts e.ev.name (e.time + waitFor)
    | none => ts ++ [(e.ev.name, e.time + waitFor, e.ev)]
  else ts

/-- Simulator state: the timer table, the time-stamped actions emitted
so far, and whether `log.Fatal` has terminated the process. -/
structure SimState where
  timers : Timers
  out : List (Nat × Action)
  fatal : Bool
deriving DecidableEq, Repr

/-- The initial state: no timers, nothing emitted. -/
def initState : SimState := ⟨[], [], false⟩

/-- A timer firing: run `processOp` on the captured event at the
deadline of the timer and then delete the table entry — unless `log.Fatal`
already ended the process, or ends it during this callback (in which
case the deletion after the inner closure is never reached). -/
def fireOne (env : Env) (st : SimState) (entry : String × Nat × FsEvent) : SimState :=
  if st.fatal then st
  else
    let r := processOp env entry.2.2
    ⟨if r.fatal then st.timers else deleteT st.timers entry.1,
     st.out ++ r.actions.map (fun a => (entry.2.1, a)),
     r.fatal⟩

/-- Fire every timer whose deadline has passed strictly before `now`. -/
def fireDue (env : Env) (st : SimState) (now : Nat) : SimState :=
  (st.timers.filter (fun x => decide (x.2.1 < now))).foldl (fireOne env) st

/-- One arrival in the event loop: timers due before the arrival fire
first, then the event updates the timer table. -/
def stepEvent (env : Env) (st : SimState) (e : TEv) : SimState :=
  let st2 := fireDue env st e.time
  if st2.fatal then st2
  else { st2 with timers := resetOrInsert st2.timers e }

/-- Run the event loop over a finite arrival sequence, then let every
remaining timer expire. -/
def runEvents (env : Env) (events : List TEv) : SimState :=
  let st := events.foldl (stepEvent env) initState
  st.timers.foldl (fireOne env) st

/-- The arrival time of the last event of the burst (`t` if none). -/
def lastTime (t : Nat) : List TEv → Nat
  | [] => t
  | x :: xs => lastTime x.time xs

/-- A burst on path `p` after an event at time `t`: every event is on
`p`, qualifies, and arrives no earlier than its predecessor but
strictly within the quiet window of it. -/
def chainQ (p : String) (t : Nat) : List TEv → Bool
  | [] => true
  | x :: xs =>
    (x.ev.name == p) && qualifies x.ev.op && decide (t ≤ x.time) &&
      decide (x.time < t + waitFor) && chainQ p x.time xs

/-- A burst as in `chainQ` whose events are all Write/Remove (and not
Create) events. -/
def chainWR (p : String) (t : Nat) : List TEv → Bool
  | [] => true
  | x :: xs =>
    (x.ev.name == p) && (x.ev.op.write || x.ev.op.remove) &&
      (x.ev.op.create == false) && decide (t ≤ x.time) &&
      decide (x.time < t + waitFor) && chainWR p x.time xs

/-- Boundary-aware sub-path test of `watcher.Set`:
`strings.HasPrefix(Clean(value), Clean(p))` and the match is exact or
followed by the path separator. -/
def coveredBy (value p : String) : Bool :=
  let v := (clean value).toList
  let q := (clean p).toList
  q.isPrefixOf v && (v.length == q.length || (v.drop q.length).head? == some sepChar)

/-- The flag method `watcher.Set`: stat the value (error if it fails or
is not a directory), ignore it when an already-accepted root covers it
(boundary-aware), otherwise append its absolute path. -/
def watcherSet (stat : String → Option FileInfo) (cwd : Option String)
    (w : List String) (value : String) : Except String (List String) :=
  match stat value with
  | none => Except.error "stat failed"
  | some f =>
    if f.isDir = false then Except.error "watcher path must be a directory"
    else if w.any (fun p => coveredBy value p) then Except.ok w
    else
      match goAbs cwd value with
      | none => Except.error "abs failed"
      | some a => Except.ok (w ++ [a])

/-- Repeated `--watcher` flags: `flag.Parse` calls `watcher.Set` once
per occurrence and aborts on the first error. -/
def registerAll (stat : String → Option FileInfo) (cwd : Option String)
    (w : List String) : List String → Except String (List String)
  | [] => Except.ok w
  | v :: vs =>
    match watcherSet stat cwd w v with
    | Except.error e => Except.error e
    | Except.ok w2 => registerAll stat cwd w2 vs

/-- Result of one `watchSubdirs` call: the directories registered (in
order), whether `log.Fatal` fired (a `wat.Add` failure), and whether
this call itself returned a ReadDir error to its caller. -/
structure WalkResult where
  watched : List String
  fatal : Bool
  listFailed : Bool
deriving DecidableEq, Repr

/-- The recursive enumerator `watchSubdirs`: list the directory
(returning the error on failure), and for each subdirectory entry add
a watch (`log.Fatal` on failure) and recurse, discarding the
returned error of the recursion. The fuel bound stands for the finite depth
of the directory tree and must exceed it. -/
def watchSubdirs (rd : String → Option (List (String × Bool)))
    (addOk : String → Bool) : Nat → String → WalkResult
  | 0, _ => ⟨[], false, false⟩
  | Nat.succ fuel, dir =>
    match rd dir with
    | none => ⟨[], false, true⟩
    | some entries =>
      let r := entries.foldl (fun (acc : WalkResult) ent =>
        if acc.fatal then acc
        else if ent.2 then
          let a := clean (dir ++ "/" ++ ent.1)
          if addOk a then
            let sub := watchSubdirs rd addOk fuel a
            ⟨acc.watched ++ a :: sub.watched, sub.fatal, false⟩
          else ⟨acc.watched, true, false⟩
        else acc) (⟨[], false, false⟩ : WalkResult)
      ⟨r.watched, r.fatal, false⟩

/-- Decimal digits to a number; `none` on a non-digit. -/
def digitsVal (acc : Nat) : List Char → Option Nat
  | [] => some acc
  | c :: cs =>
    if c.isDigit then digitsVal (acc * 10 + (c.toNat - 48)) cs else none

/-- Go `strconv.Atoi`: optional sign followed by at least one decimal
digit. -/
def atoi (s : String) : Option Int :=
  match s.toList with
  | [] => none
  | c :: cs =>
    if c = '-' then
      match cs with
      | [] => none
      | _ => (digitsVal 0 cs).map (fun n => -(n : Int))
    else if c = '+' then
      match cs with
      | [] => none
      | _ => (digitsVal 0 cs).map (fun n => (n : Int))
    else (digitsVal 0 (c :: cs)).map (fun n => (n : Int))

/-- The `STASH_SCAN_INTERVAL_MINS` lookup in `init`: the raw string,
defaulting to "30" when the variable is unset. -/
def intervalMinsRaw (envVar : Option String) : String := envVar.getD "30"

/-- Startup configuration: the `--watcher` flag values in order, and
the raw scan-interval environment variable. -/
structure Config where
  watcherArgs : List String
  intervalEnvVar : Option String

/-- Outcome of the sequential skeleton of `main`. -/
structure StartupResult where
  fatal : Bool
  reachedWait : Bool
  roots : List String
  walks : List WalkResult
  intervalMins : Int
deriving Repr

/-- The `main` function up to the signal-wait loop: parse the flags
(fatal on error), require at least one root, add a watch per root
(fatal on error), spawn the subtree walks (whose returned ReadDir
errors are discarded, but whose `log.Fatal` ends the process), then
parse the scan interval (fatal on error) and start the ticker and the
wait loop. -/
def startup (stat : String → Option FileInfo) (cwd : Option String)
    (addOk : String → Bool) (rd : String → Option (List (String × Bool)))
    (fuel : Nat) (cfg : Config) : StartupResult :=
  match registerAll stat cwd [] cfg.watcherArgs with
  | Except.error _ => ⟨true, false, [], [], 0⟩
  | Except.ok roots =>
    if roots.length < 1 then ⟨true, false, roots, [], 0⟩
    else if roots.all addOk = false then ⟨true, false, roots, [], 0⟩
    else if (roots.map (watchSubdirs rd addOk fuel)).any (fun wk => wk.fatal) then
      ⟨true, false, roots, roots.map (watchSubdirs rd addOk fuel), 0⟩
    else
      match atoi (intervalMinsRaw cfg.intervalEnvVar) with
      | none => ⟨true, false, roots, roots.map (watchSubdirs rd addOk fuel), 0⟩
      | some d => ⟨false, true, roots, roots.map (watchSubdirs rd addOk fuel), d⟩

/-- The scheduled-trigger goroutine: every tick performs the same
notification call `sendScanRequest(endpointEnv, doAuthEnv)`,
independent of the filesystem and of the debounce table (neither is an
input). -/
def scheduledRun (env : Env) (ticks : Nat) : List Action :=
  List.replicate ticks (notifyAction env)

/-! Concrete environments and events used by witnesses and
counterexamples. -/

/-- An environment in which every path stats as a plain file. -/
def envFile : Env :=
  ⟨fun _ => some ⟨false⟩, some "/cwd", fun _ => true, "http://stash:9999/graphql", false⟩

/-- An environment in which every path stats as a directory. -/
def envDirWatch : Env :=
  ⟨fun _ => some ⟨true⟩, some "/", fun _ => true, "http://stash:9999/graphql", false⟩

/-- An environment in which every stat fails. -/
def envStatFail : Env :=
  ⟨fun _ => none, some "/cwd", fun _ => true, "http://stash:9999/graphql", false⟩

/-- A Write event on `/data/x.mp4` at t = 0. -/
def evW1 : TEv := ⟨0, ⟨"/data/x.mp4", ⟨false, true, false⟩⟩⟩

/-- A Write event on `/data/x.mp4` at t = 50. -/
def evW2 : TEv := ⟨50, ⟨"/data/x.mp4", ⟨false, true, false⟩⟩⟩

/-- A Remove event on `/data/x.mp4` at t = 90. -/
def evW3 : TEv := ⟨90, ⟨"/data/x.mp4", ⟨false, false, true⟩⟩⟩

/-- A Create event on `/data/sub` at t = 0. -/
def evC1 : TEv := ⟨0, ⟨"/data/sub", ⟨true, false, false⟩⟩⟩

/-- A Write event on `/data/sub` at t = 60. -/
def evC2 : TEv := ⟨60, ⟨"/data/sub", ⟨false, true, false⟩⟩⟩

/-! Association-list lemmas about the timer table. -/

/-- Deleting a path from the timer table removes its entry. -/
theorem lookupT_deleteT (ts : Timers) (p : String) :
    lookupT (deleteT ts p) p = none := by
  induction ts with
  | nil => rfl
  | cons x rest ih =>
    obtain ⟨n, d, c⟩ := x
    unfold deleteT
    rw [List.filter_cons]
    by_cases h : (n == p) = true
    · simp only [h, Bool.not_true, Bool.false_eq_true, if_false]
      exact ih
    · simp only [Bool.not_eq_true] at h
      simp only [h, Bool.not_false, if_true, lookupT, Bool.false_eq_true, if_false]
      exact ih

/-- A lookup that misses the front part of an appended table continues
in the back part. -/
theorem lookupT_append_of_none (ts l2 : Timers) (p : String)
    (h : lookupT ts p = none) : lookupT (ts ++ l2) p = lookupT l2 p := by
  induction ts with
  | nil => rfl
  | cons x rest ih =>
    obtain ⟨n, d, c⟩ := x
    by_cases hn : (n == p) = true
    · simp [lookupT, hn] at h
    · simp only [lookupT, hn, Bool.false_eq_true, if_false] at h
      simp only [List.cons_append, lookupT, hn, Bool.false_eq_true, if_false]
      exact ih h

/-- Resetting the timer of a present path updates its deadline and
keeps its captured event. -/
theorem lookupT_resetT (ts : Timers) (p : String) (d0 nd : Nat) (c0 : FsEvent)
    (h : lookupT ts p = some (d0, c0)) :
    lookupT (resetT ts p nd) p = some (nd, c0) := by
  induction ts with
  | nil => simp [lookupT] at h
  | cons x rest ih =>
    obtain ⟨n, d, c⟩ := x
    by_cases hn : (n == p) = true
    · simp only [lookupT, hn, if_true] at h
      simp only [resetT, hn, if_true, lookupT]
      simp_all
    · simp only [lookupT, hn, Bool.false_eq_true, if_false] at h
      simp only [resetT, hn, Bool.false_eq_true, if_false, lookupT]
      exact ih h

/-! The burst lemmas: a sequence of qualifying events on one path,
each within the quiet window of its predecessor, keeps exactly one
table entry alive, capturing the first event, with the deadline
following the most recent arrival. -/

/-- Folding a burst over the event loop only slides the deadline of the
single pending entry; the captured event and the output are
untouched. -/
theorem burst_fold (env : Env) (p : String) (cap : FsEvent)
    (out0 : List (Nat × Action)) :
    ∀ (es : List TEv) (t : Nat), chainQ p t es = true →
      es.foldl (stepEvent env) ⟨[(p, t + waitFor, cap)], out0, false⟩ =
        ⟨[(p, lastTime t es + waitFor, cap)], out0, false⟩ := by
  intro es
  induction es with
  | nil => intro t _; rfl
  | cons x xs ih =>
    intro t h
    simp only [chainQ, Bool.and_eq_true, decide_eq_true_eq, beq_iff_eq] at h
    obtain ⟨⟨⟨⟨hname, hq⟩, hle⟩, hlt⟩, hrest⟩ := h
    have hnb : ¬ (t + waitFor < x.time) := by omega
    have hstep : stepEvent env ⟨[(p, t + waitFor, cap)], out0, false⟩ x =
        ⟨[(p, x.time + waitFor, cap)], out0, false⟩ := by
      simp [stepEvent, fireDue, List.filter_cons, hnb, resetOrInsert, hq,
        hname, lookupT, resetT]
    rw [List.foldl_cons, hstep]
    simpa [lastTime] using ih x.time hrest

/-- Running a whole burst is one final timer firing on the first event,
at one quiet window after the last arrival. -/
theorem burst_run (env : Env) (e : TEv) (es : List TEv)
    (h1 : qualifies e.ev.op = true)
    (h2 : chainQ e.ev.name e.time es = true) :
    runEvents env (e :: es) =
      fireOne env ⟨[(e.ev.name, lastTime e.time es + waitFor, e.ev)], [], false⟩
        (e.ev.name, lastTime e.time es + waitFor, e.ev) := by
  have hfirst : stepEvent env initState e =
      ⟨[(e.ev.name, e.time + waitFor, e.ev)], [], false⟩ := by
    simp [stepEvent, fireDue, initState, resetOrInsert, h1, lookupT]
  simp only [runEvents]
  rw [List.foldl_cons, hfirst, burst_fold env e.ev.name e.ev [] es e.time h2]
  rfl

/-- A burst of Write/Remove events on one path: `chainWR` implies
`chainQ`. -/
theorem chainWR_imp_chainQ (p : String) :
    ∀ (es : List TEv) (t : Nat), chainWR p t es = true → chainQ p t es = true := by
  intro es
  induction es with
  | nil => intro t _; rfl
  | cons x xs ih =>
    intro t h
    simp only [chainWR, Bool.and_eq_true, decide_eq_true_eq, beq_iff_eq] at h
    obtain ⟨⟨⟨⟨⟨hname, hwr⟩, hcr⟩, hle⟩, hlt⟩, hrest⟩ := h
    have hq : qualifies x.ev.op = true := by
      rcases Bool.or_eq_true_iff.mp hwr with h | h <;> simp [qualifies, h]
    simp only [chainQ, Bool.and_eq_true, decide_eq_true_eq, beq_iff_eq]
    exact ⟨⟨⟨⟨hname, hq⟩, hle⟩, hlt⟩, ih x.time hrest⟩

/-- A Write/Remove event (not a Create) makes `processOp` notify. -/
theorem processOp_noncreate (env : Env) (e : FsEvent)
    (h : e.op.create = false) : processOp env e = ⟨[notifyAction env], false⟩ := by
  simp [processOp, h]

/-- C1: for every sequence of N qualifying Write/Remove events on the
same path, each arriving within less than the quiet window (100ms) of
the previous one, exactly one notification call is made, occurring one
quiet window after the last event of the sequence. -/
theorem burst_single_notification (env : Env) (e : TEv) (es : List TEv)
    (h1 : (e.ev.op.write || e.ev.op.remove) = true)
    (h2 : e.ev.op.create = false)
    (h3 : chainWR e.ev.name e.time es = true) :
    (runEvents env (e :: es)).out =
        [(lastTime e.time es + waitFor, notifyAction env)] ∧
      (runEvents env (e :: es)).timers = [] := by
  have hq : qualifies e.ev.op = true := by
    rcases Bool.or_eq_true_iff.mp h1 with h | h <;> simp [qualifies, h]
  have hcq : chainQ e.ev.name e.time es = true := chainWR_imp_chainQ _ es e.time h3
  rw [burst_run env e es hq hcq]
  have hp : processOp env e.ev = ⟨[notifyAction env], false⟩ :=
    processOp_noncreate env e.ev h2
  refine ⟨by simp [fireOne, hp], ?_⟩
  simp [fireOne, hp, deleteT, List.filter_cons]

/-- Witness for C1: three rapid Write/Write/Remove events on
`/data/x.mp4` at t = 0, 50, 90 yield exactly one notification, at
t = 190. -/
theorem burst_single_notification_witness :
    chainWR "/data/x.mp4" 0 [evW2, evW3] = true ∧
      (runEvents envFile [evW1, evW2, evW3]).out =
        [(lastTime 0 [evW2, evW3] + waitFor, notifyAction envFile)] :=
  ⟨by decide,
   (burst_single_notification envFile evW1 [evW2, evW3] (by decide) (by decide)
      (by decide)).1⟩

/-- C10: for every burst of qualifying events on a single path, the
action executed when the debounce timer expires is computed from the
first event of the burst — the one captured when the timer entry was
created; the later events of the burst only reset the timer, so the
settle-time classification reflects the first event of the burst. -/
theorem settle_action_from_first_event (env : Env) (e : TEv) (es : List TEv)
    (h1 : qualifies e.ev.op = true)
    (h2 : chainQ e.ev.name e.time es = true) :
    (runEvents env (e :: es)).out =
      (processOp env e.ev).actions.map (fun a => (lastTime e.time es + waitFor, a)) := by
  rw [burst_run env e es h1 h2]
  simp [fireOne]

/-- Witness for C10: a Create-of-directory event followed within the
window by a Write on the same path settles with the classification of
the first event — a registration, not a notification. -/
theorem settle_action_from_first_event_witness :
    chainQ "/data/sub" 0 [evC2] = true ∧
      (runEvents envDirWatch [evC1, evC2]).out =
        (processOp envDirWatch evC1.ev).actions.map
          (fun a => (lastTime 0 [evC2] + waitFor, a)) :=
  ⟨by decide,
   settle_action_from_first_event envDirWatch evC1 [evC2] (by decide) (by decide)⟩

/-- A Create event at t = 0 on `/gone`, a path whose stat fails. -/
def evCFail : TEv := ⟨0, ⟨"/gone", ⟨true, false, false⟩⟩⟩

/-- If the pending table has an entry for the path of the event, it gets one
after the bookkeeping too. -/
theorem lookupT_resetOrInsert (ts : Timers) (e : TEv)
    (h : qualifies e.ev.op = true) :
    (lookupT (resetOrInsert ts e) e.ev.name).isSome = true := by
  unfold resetOrInsert
  simp only [h, if_true]
  cases hl : lookupT ts e.ev.name with
  | none =>
    rw [lookupT_append_of_none ts _ _ hl]
    simp [lookupT]
  | some v =>
    obtain ⟨d0, c0⟩ := v
    rw [lookupT_resetT ts _ d0 _ c0 hl]
    rfl

/-- C2 counterexample: for the Create event `evC1` on the directory
`/data/sub` (an event whose classification yields no notification),
the receipt-time bookkeeping of `dedupLoop` inserts a debounce-table
entry for the path and runs no classification at all — the
registration only happens when the timer fires — contradicting the
claim that such an event never enters the debounce table. -/
theorem create_dir_event_enters_table_cex :
    (processOp envDirWatch evC1.ev).actions = [Action.register "/data/sub"] ∧
      (stepEvent envDirWatch initState evC1).out = [] ∧
      lookupT (stepEvent envDirWatch initState evC1).timers "/data/sub" =
        some (100, evC1.ev) ∧
      (runEvents envDirWatch [evC1]).out = [(100, Action.register "/data/sub")] :=
  ⟨by decide, by decide, by decide, by decide⟩

/-- C2 amended: classification does not run at receipt; every
qualifying event — including a Create of a directory — inserts or
resets a debounce-table entry for its path at receipt, and the
classifier only runs when the timer fires. -/
theorem qualifying_event_always_pending (env : Env) (st : SimState) (e : TEv)
    (h0 : (fireDue env st e.time).fatal = false)
    (h1 : qualifies e.ev.op = true) :
    (lookupT (stepEvent env st e).timers e.ev.name).isSome = true := by
  simp only [stepEvent, h0, Bool.false_eq_true, if_false]
  exact lookupT_resetOrInsert _ e h1

/-- Witness for the amended C2: the directory-Create event `evC1` on
the idle initial state leaves a pending debounce entry. -/
theorem qualifying_event_always_pending_witness :
    (fireDue envDirWatch initState evC1.time).fatal = false ∧
      qualifies evC1.ev.op = true ∧
      (lookupT (stepEvent envDirWatch initState evC1).timers evC1.ev.name).isSome = true :=
  ⟨by decide, by decide,
   qualifying_event_always_pending envDirWatch initState evC1 (by decide) (by decide)⟩

/-- C4: for every Create event whose path stats successfully as a
directory (and whose registration with the event source succeeds), the
path is registered — and no notification is made for that event. -/
theorem create_dir_registers_no_notify (env : Env) (e : FsEvent) (a : String)
    (f : FileInfo) (h1 : e.op.create = true) (h2 : goAbs env.cwd e.name = some a)
    (h3 : env.stat a = some f) (h4 : f.isDir = true) (h5 : env.addOk a = true) :
    processOp env e = ⟨[Action.register a], false⟩ := by
  simp [processOp, h1, h2, h3, h4, h5]

/-- Witness for C4: the Create of directory `/data/sub` registers it
and emits no notification. -/
theorem create_dir_registers_no_notify_witness :
    evC1.ev.op.create = true ∧
      goAbs envDirWatch.cwd evC1.ev.name = some "/data/sub" ∧
      processOp envDirWatch evC1.ev = ⟨[Action.register "/data/sub"], false⟩ :=
  ⟨by decide, by decide,
   create_dir_registers_no_notify envDirWatch evC1.ev "/data/sub" ⟨true⟩
     (by decide) (by decide) (by decide) (by decide) (by decide)⟩

/-- C5: after a timer fires and its callback runs without
`log.Fatal` — in particular on a stat error (the callback is a soft
error) and on a notification-request error (`sendScanRequest` never
ends the process) — the entry of the path is deleted from the timer table,
so the path is idle again. -/
theorem timer_entry_cleared_after_fire (env : Env) (st : SimState)
    (n : String) (d : Nat) (cap : FsEvent)
    (h0 : st.fatal = false) (h1 : (processOp env cap).fatal = false) :
    lookupT (fireOne env st (n, d, cap)).timers n = none := by
  simp only [fireOne, h0, Bool.false_eq_true, if_false, h1]
  exact lookupT_deleteT st.timers n

/-- Witness for C5: a Create on a vanished path (stat error) still has
its debounce entry removed when the timer fires. -/
theorem timer_entry_cleared_after_fire_witness :
    (processOp envStatFail evCFail.ev).fatal = false ∧
      lookupT (fireOne envStatFail ⟨[("/gone", 100, evCFail.ev)], [], false⟩
        ("/gone", 100, evCFail.ev)).timers "/gone" = none :=
  ⟨by decide,
   timer_entry_cleared_after_fire envStatFail ⟨[("/gone", 100, evCFail.ev)], [], false⟩
     "/gone" 100 evCFail.ev (by decide) (by decide)⟩

/-- C6: a Create event whose absolute path cannot be resolved or whose
path cannot be stat-ed is logged and dropped as a soft error: no
notification, no registration, and no process termination. -/
theorem create_stat_failure_soft (env : Env) (e : FsEvent)
    (h1 : e.op.create = true)
    (h2 : goAbs env.cwd e.name = none ∨
      ∃ a, goAbs env.cwd e.name = some a ∧ env.stat a = none) :
    processOp env e = ⟨[Action.softErrorLogged], false⟩ := by
  rcases h2 with h2 | ⟨a, h2, h3⟩
  · simp [processOp, h1, h2]
  · simp [processOp, h1, h2, h3]

/-- Witness for C6: a Create on `/gone` whose stat fails is logged and
dropped. -/
theorem create_stat_failure_soft_witness :
    evCFail.ev.op.create = true ∧ envStatFail.stat "/gone" = none ∧
      processOp envStatFail evCFail.ev = ⟨[Action.softErrorLogged], false⟩ :=
  ⟨by decide, by decide,
   create_stat_failure_soft envStatFail evCFail.ev (by decide)
     (Or.inr ⟨"/gone", by decide, by decide⟩)⟩

/-- A stat function under which every path is a directory. -/
def statDirs : String → Option FileInfo := fun _ => some ⟨true⟩

/-- A read-directory function under which every listing fails. -/
def rdRootFail : String → Option (List (String × Bool)) := fun _ => none

/-- A filesystem whose root `/r` has subdirectories `a` (its listing
fails) and `b` (empty). -/
def rdSib : String → Option (List (String × Bool)) := fun s =>
  if s = "/r" then some [("a", true), ("b", true)]
  else if s = "/r/b" then some []
  else none

/-- C3 counterexample: supplying the descendant `/a/b` before its
ancestor `/a` retains both roots, although `/a/b` is a boundary-aware
sub-path of `/a` — the no-nested-roots invariant fails for this
supply order. -/
theorem nested_roots_order_cex :
    registerAll statDirs (some "/") [] ["/a/b", "/a"] = Except.ok ["/a/b", "/a"] ∧
      coveredBy "/a/b" "/a" = true :=
  ⟨rfl, by decide⟩

/-- C3 amended: a newly supplied root that an already-retained root
covers (boundary-aware: exact match or followed by the separator) is
silently ignored, so in ancestor-first order only the ancestor is
retained; a later ancestor of an already-retained descendant is still
appended, so the invariant holds only for that order. -/
theorem covered_root_ignored (stat : String → Option FileInfo)
    (cwd : Option String) (w : List String) (value : String) (f : FileInfo)
    (h1 : stat value = some f) (h2 : f.isDir = true)
    (h3 : w.any (fun p => coveredBy value p) = true) :
    watcherSet stat cwd w value = Except.ok w := by
  simp [watcherSet, h1, h2, h3]

/-- Witness for the amended C3: with `/a` retained, registering the
descendant `/a/b` leaves the root list unchanged; supplying both in
ancestor-first order retains only `/a`. -/
theorem covered_root_ignored_witness :
    statDirs "/a/b" = some ⟨true⟩ ∧
      watcherSet statDirs (some "/") ["/a"] "/a/b" = Except.ok ["/a"] ∧
      registerAll statDirs (some "/") [] ["/a", "/a/b"] = Except.ok ["/a"] :=
  ⟨by decide,
   covered_root_ignored statDirs (some "/") ["/a"] "/a/b" ⟨true⟩ (by decide)
     (by decide) (by decide),
   rfl⟩

/-- The body of the per-entry loop of `watchSubdirs`, at recursion
budget `fuel` for the subdirectories of `dir`. -/
def walkStep (rd : String → Option (List (String × Bool)))
    (addOk : String → Bool) (fuel : Nat) (dir : String)
    (acc : WalkResult) (ent : String × Bool) : WalkResult :=
  if acc.fatal then acc
  else if ent.2 then
    let a := clean (dir ++ "/" ++ ent.1)
    if addOk a then
      let sub := watchSubdirs rd addOk fuel a
      ⟨acc.watched ++ a :: sub.watched, sub.fatal, false⟩
    else ⟨acc.watched, true, false⟩
  else acc

/-- `watchSubdirs` at positive fuel is the per-entry loop over the
listing. -/
theorem watchSubdirs_succ (rd : String → Option (List (String × Bool)))
    (addOk : String → Bool) (fuel : Nat) (dir : String) :
    watchSubdirs rd addOk (fuel + 1) dir =
      match rd dir with
      | none => ⟨[], false, true⟩
      | some entries =>
        let r := entries.foldl (walkStep rd addOk fuel dir) ⟨[], false, false⟩
        ⟨r.watched, r.fatal, false⟩ := rfl

/-- When every watch registration succeeds, the per-entry loop never
turns fatal. -/
theorem walkFold_fatal_false (rd : String → Option (List (String × Bool)))
    (addOk : String → Bool) (fuel : Nat) (dir : String)
    (hsub : ∀ a, (watchSubdirs rd addOk fuel a).fatal = false)
    (hadd : ∀ p, addOk p = true) :
    ∀ (entries : List (String × Bool)) (acc : WalkResult), acc.fatal = false →
      (entries.foldl (walkStep rd addOk fuel dir) acc).fatal = false := by
  intro entries
  induction entries with
  | nil => intro acc h; simpa using h
  | cons ent rest ih =>
    intro acc h
    rw [List.foldl_cons]
    apply ih
    unfold walkStep
    by_cases he : ent.2 = true <;> simp [he, h, hadd, hsub]

/-- When every watch registration succeeds, `watchSubdirs` is never
fatal, whatever listings fail. -/
theorem walk_fatal_false (rd : String → Option (List (String × Bool)))
    (addOk : String → Bool) (hadd : ∀ p, addOk p = true) :
    ∀ (fuel : Nat) (dir : String), (watchSubdirs rd addOk fuel dir).fatal = false := by
  intro fuel
  induction fuel with
  | zero => intro _; rfl
  | succ fuel ih =>
    intro dir
    rw [watchSubdirs_succ]
    cases rd dir with
    | none => rfl
    | some entries =>
      exact walkFold_fatal_false rd addOk fuel dir ih hadd entries ⟨[], false, false⟩ rfl

/-- C7 counterexample: with a root `/r` whose listing fails, the
enumeration returns the error, but `main` runs `watchSubdirs` as a
spawned call whose returned error is discarded: startup completes
without any fatal error. A listing failure at the root is not reported
as a fatal startup error, contradicting the "exactly when" of the claim. -/
theorem root_list_failure_not_fatal_cex :
    (watchSubdirs rdRootFail (fun _ => true) 5 "/r").listFailed = true ∧
      (startup statDirs (some "/") (fun _ => true) rdRootFail 5 ⟨["/r"], none⟩).fatal
        = false ∧
      (startup statDirs (some "/") (fun _ => true) rdRootFail 5 ⟨["/r"], none⟩).reachedWait
        = true :=
  ⟨by decide, by decide, by decide⟩

/-- C7 amended: a failure to list the contents of a directory aborts
enumeration of that subtree only (siblings are still enumerated) and
is never fatal — at the root as everywhere else, the returned error is
discarded; only a failure to register a discovered subdirectory is
fatal. -/
theorem list_failure_soft_subtree_only :
    (∀ (rd : String → Option (List (String × Bool))) (addOk : String → Bool)
        (fuel : Nat) (dir : String), (∀ p, addOk p = true) →
        (watchSubdirs rd addOk fuel dir).fatal = false) ∧
      watchSubdirs rdSib (fun _ => true) 3 "/r" = ⟨["/r/a", "/r/b"], false, false⟩ :=
  ⟨fun rd addOk fuel dir hadd => walk_fatal_false rd addOk hadd fuel dir, by decide⟩

/-- Witness for the amended C7: even with every listing failing, the
walk of `/x` ends without a fatal error. -/
theorem list_failure_soft_subtree_only_witness :
    (watchSubdirs rdRootFail (fun _ => true) 2 "/x").fatal = false :=
  list_failure_soft_subtree_only.1 rdRootFail (fun _ => true) 2 "/x" (fun _ => rfl)

/-- Every `--watcher` value accepted by flag parsing stats as a
directory. -/
theorem registerAll_ok_stat (stat : String → Option FileInfo) (cwd : Option String) :
    ∀ (args w w2 : List String), registerAll stat cwd w args = Except.ok w2 →
      ∀ v ∈ args, ∃ f, stat v = some f ∧ f.isDir = true := by
  intro args
  induction args with
  | nil => intro w w2 _ v hv; cases hv
  | cons x xs ih =>
    intro w w2 h v hv
    rw [registerAll] at h
    cases hws : watcherSet stat cwd w x with
    | error e => rw [hws] at h; cases h
    | ok w3 =>
      rw [hws] at h
      rcases List.mem_cons.mp hv with rfl | hv2
      · simp only [watcherSet] at hws
        cases hst : stat v with
        | none => rw [hst] at hws; cases hws
        | some f =>
          rw [hst] at hws
          refine ⟨f, rfl, ?_⟩
          by_cases hd : f.isDir = false
          · simp [hd] at hws
          · simpa using hd
      · exact ih w3 w2 h v hv2

/-- C8: each fatal configuration error — no watch roots, a root that
does not exist or is not a directory, a malformed scan interval —
aborts startup: the process terminates before reaching the wait
loop. -/
theorem fatal_config_aborts (stat : String → Option FileInfo)
    (cwd : Option String) (addOk : String → Bool)
    (rd : String → Option (List (String × Bool))) (fuel : Nat) (cfg : Config)
    (h : cfg.watcherArgs = [] ∨
      (∃ v ∈ cfg.watcherArgs, stat v = none ∨ ∃ f, stat v = some f ∧ f.isDir = false) ∨
      atoi (intervalMinsRaw cfg.intervalEnvVar) = none) :
    (startup stat cwd addOk rd fuel cfg).fatal = true ∧
      (startup stat cwd addOk rd fuel cfg).reachedWait = false := by
  unfold startup
  split
  · exact ⟨rfl, rfl⟩
  · rename_i roots hreg
    by_cases hlen : roots.length < 1
    · rw [if_pos hlen]; exact ⟨rfl, rfl⟩
    · rw [if_neg hlen]
      by_cases hall : roots.all addOk = false
      · rw [if_pos hall]; exact ⟨rfl, rfl⟩
      · rw [if_neg hall]
        by_cases hwf :
            ((roots.map (watchSubdirs rd addOk fuel)).any (fun wk => wk.fatal)) = true
        · rw [if_pos hwf]; exact ⟨rfl, rfl⟩
        · rw [if_neg hwf]
          cases hatoi : atoi (intervalMinsRaw cfg.intervalEnvVar) with
          | none => exact ⟨rfl, rfl⟩
          | some d =>
            exfalso
            rcases h with h | h | h
            · rw [h] at hreg
              simp only [registerAll] at hreg
              cases hreg
              exact hlen (by simp)
            · obtain ⟨v, hv, hbad⟩ := h
              obtain ⟨f, hst, hdir⟩ :=
                registerAll_ok_stat stat cwd cfg.watcherArgs [] roots hreg v hv
              rcases hbad with hb | ⟨f2, hf2, hdir2⟩
              · rw [hb] at hst; cases hst
              · rw [hf2] at hst
                cases hst
                rw [hdir] at hdir2
                cases hdir2
            · rw [h] at hatoi; cases hatoi

/-- Witness for C8: startup with no `--watcher` arguments is fatal. -/
theorem fatal_config_aborts_witness :
    (Config.mk [] none).watcherArgs = [] ∧
      (startup statDirs (some "/") (fun _ => true) rdRootFail 1 ⟨[], none⟩).fatal = true :=
  ⟨rfl,
   (fatal_config_aborts statDirs (some "/") (fun _ => true) rdRootFail 1 ⟨[], none⟩
      (Or.inl rfl)).1⟩

/-- C9: every tick of the scheduled trigger performs the very
notification action the debounce path performs, independent of any
filesystem or debounce input (the schedule is a function of the tick
count alone), and with the interval environment variable unset the raw
interval defaults to "30" minutes, which parses to 30. -/
theorem scheduled_trigger_fixed_action (env : Env) (n : Nat) (name : String)
    (w r : Bool) :
    scheduledRun env n = List.replicate n (notifyAction env) ∧
      (processOp env ⟨name, ⟨false, w, r⟩⟩).actions = [notifyAction env] ∧
      intervalMinsRaw none = "30" ∧
      atoi (intervalMinsRaw none) = some 30 :=
  ⟨rfl, rfl, rfl, by decide⟩

end StashWatcher
